import Mathlib

/-!
# Verification development for `retry` (src/main.go)

A shallow embedding of the command-retry wrapper.  The program is a small
imperative Go program whose behaviour is a function of

* the resolved configuration (`AppConfig`),
* the results of the child-process executions (`cmd.Run()`), and
* two standard-library functions, `time.ParseDuration` and
  `regexp.MatchString`.

The library functions and the operating system are taken as parameters
(`Env`).  Side effects (process executions, printed lines, sleeps) are
recorded in an explicit trace of events, so that the number of
invocations, prints and sleeps can be counted.
-/

namespace Retry

/-! ## Data model -/

/-- Struct `AppConfig` of src/main.go (lines 18-24). -/
structure AppConfig where
  Retries : Int
  Sleep : String
  Regex : List String
  Min : String
  Max : String
  deriving DecidableEq, Repr

/-- A Go `time.Duration`: a count of nanoseconds. -/
abbrev Duration := Int

/-- A Go `error` value, as far as the program distinguishes them: the
dynamic type `*exec.ExitError` (with its `ExitCode()`), or anything else
(a launch failure, a duration parse error, a regexp compile error). -/
inductive GoError where
  | exitError (code : Int)
  | other (msg : String)
  deriving DecidableEq, Repr

/-- What one call of `cmd.Run()` leaves behind: the returned error (`none`
is Go `nil`, the child exited with code 0) and the two captured buffers. -/
structure Attempt where
  err : Option GoError
  stdout : String
  stderr : String
  deriving DecidableEq, Repr

/-- The collaborators outside the repository.
* `parseDuration` is `time.ParseDuration`;
* `matchString pattern s` is `regexp.MatchString`: `.error` when the
  pattern does not compile (Go then returns `false` together with the error);
* `run k name args` is the result of the `k`-th (0-based) execution of the
  child process `name args...` during this program run. -/
structure Env where
  parseDuration : String → Except GoError Duration
  matchString : String → String → Except GoError Bool
  run : Nat → String → List String → Attempt

/-- Observable side effects. -/
inductive Event where
  | exec (name : String) (args : List String)
  | println (s : String)
  | printf (s : String)
  | sleep (d : Duration)
  deriving DecidableEq, Repr

/-- How a Go function that may call `os.Exit` finishes. -/
inductive Outcome where
  | returned (err : Option GoError)
  | exited (code : Int)
  deriving DecidableEq, Repr

/-- Trace and outcome of one call of `executeCommand`. -/
structure Result where
  trace : List Event
  outcome : Outcome
  deriving DecidableEq, Repr

/-! ## Observations on traces -/

/-- Number of child-process executions in a trace.  Every call of
`runCommand` performs exactly one `cmd.Run()`, so this is also the number
of `runCommand` invocations. -/
def invocations : List Event → Nat
  | [] => 0
  | Event.exec _ _ :: t => invocations t + 1
  | _ :: t => invocations t

/-- The durations of the sleeps of a trace, in order. -/
def sleeps : List Event → List Duration
  | [] => []
  | Event.sleep d :: t => d :: sleeps t
  | _ :: t => sleeps t

/-- The arguments of the `fmt.Println` calls of a trace, in order. -/
def printed : List Event → List String
  | [] => []
  | Event.println s :: t => s :: printed t
  | _ :: t => printed t

/-- Total time slept in a trace. -/
def totalSlept (tr : List Event) : Duration := (sleeps tr).sum

/-! ## The program -/

/-- The statement `matched, _ = regexp.MatchString(matchPattern, s)`
(src/main.go line 145): the error is dropped, and Go returns `false` with
it. -/
def matchedBy (env : Env) (matchPattern : String) (s : String) : Bool :=
  match env.matchString matchPattern s with
  | Except.ok b => b
  | Except.error _ => false

/-- The `for _, matchPattern := range matchPatterns` loop of `runCommand`
(src/main.go lines 144-150).  `some _` is the early `return err` from
inside the loop together with the events before it; `none` means the loop
ran to its end. -/
def runCommand.patternLoop (env : Env) (out : String) (err : GoError) :
    List String → Option (List Event × Option GoError)
  | [] => none
  | matchPattern :: rest =>
    if matchedBy env matchPattern out then
      some ([Event.println out], some err)
    else
      runCommand.patternLoop env out err rest

/-- Function `runCommand` (src/main.go lines 133-157), as the `k`-th
execution of the child.  Returns the events and the returned `error`. -/
def runCommand (env : Env) (k : Nat) (name : String) (matchPatterns : List String)
    (args : List String) : List Event × Option GoError :=
  let r := env.run k name args
  let early : Option (List Event × Option GoError) :=
    match r.err with
    | some (GoError.exitError code) =>
      if code = 1 then
        runCommand.patternLoop env r.stdout (GoError.exitError code) matchPatterns
      else none
    | _ => none
  match early with
  | some (evs, e) => (Event.exec name args :: evs, e)
  | none => ([Event.exec name args, Event.println r.stdout], none)

/-- The text printed by the `fmt.Printf` of src/main.go line 121. -/
def retryMessage (i : Nat) (configOption : AppConfig) : String :=
  "Encountered an error eligible for retrying. Attempt " ++ toString (i + 1) ++ "/" ++
    toString configOption.Retries ++ " failed. Sleeping " ++ configOption.Sleep ++
    " before retrying.\n"

/-- The loop `for i := 0; i < configOption.Retries; i++` of `executeCommand`
(src/main.go lines 115-123), entered at counter value `i` with
`remaining = Retries - i` iterations still allowed by the loop condition.
Returns the events and the final value of the variable `err`. -/
def executeCommand.loop (env : Env) (command : String) (args : List String)
    (configOption : AppConfig) (sleepDuration : Duration) :
    (remaining : Nat) → (i : Nat) → (err : Option GoError) → List Event × Option GoError
  | 0, _, err => ([], err)
  | remaining + 1, i, _ =>
    match runCommand env i command configOption.Regex args with
    | (evs, none) => (evs, none)
    | (evs, some e) =>
      let step := evs ++ [Event.printf (retryMessage i configOption), Event.sleep sleepDuration]
      let rest := executeCommand.loop env command args configOption sleepDuration
        remaining (i + 1) (some e)
      (step ++ rest.1, rest.2)

/-- Function `executeCommand` (src/main.go lines 108-131). -/
def executeCommand (env : Env) (command : String) (args : List String)
    (configOption : AppConfig) : Result :=
  match env.parseDuration configOption.Sleep with
  | Except.error err2 => { trace := [], outcome := Outcome.returned (some err2) }
  | Except.ok sleepDuration =>
    let r := executeCommand.loop env command args configOption sleepDuration
      configOption.Retries.toNat 0 none
    match r.2 with
    | some _ =>
      { trace := r.1 ++ [Event.println "Command execution failed after retries."],
        outcome := Outcome.exited 1 }
    | none => { trace := r.1, outcome := Outcome.returned none }

/-- Function `main` (src/main.go lines 101-106): the process exit code that
follows from the outcome of the command's `RunE`. -/
def exitCode : Outcome → Int
  | Outcome.returned none => 0
  | Outcome.returned (some _) => 1
  | Outcome.exited code => code

/-- Go `strings.Split(s, sep)` for a one-character separator, on the
characters of the string: the pieces between the occurrences of `sep`, so a
text without `sep` gives one piece and `k` occurrences give `k + 1` pieces.
(A Go string is a byte sequence; the space is a single byte that occurs in
no multi-byte character, so cutting at space characters and cutting at
space bytes give the same pieces.) -/
def splitChars (sep : Char) : List Char → List (List Char)
  | [] => [[]]
  | c :: cs =>
    if c = sep then [] :: splitChars sep cs
    else
      match splitChars sep cs with
      | [] => [[c]]
      | piece :: pieces => (c :: piece) :: pieces

/-- Go `strings.Split(s, " ")`. -/
def stringsSplitSpace (s : String) : List String :=
  (splitChars ' ' s.data).map String.mk

/-- Go `strings.Join(elems, " ")`. -/
def stringsJoinSpace : List String → String
  | [] => ""
  | [a] => a
  | a :: b :: rest => a ++ " " ++ stringsJoinSpace (b :: rest)

/-- The command-line handling of `NewCommand.RunE` (src/main.go lines
65-83): the program name and argument list handed to `executeCommand`, or
`none` when no argument was given (the process then exits with code 1). -/
def commandLine (args : List String) : Option (String × List String) :=
  match args with
  | [] => none
  | [command] =>
    match stringsSplitSpace command with
    | first :: second :: rest => some (first, second :: rest)
    | _ => some (command, [])
  | first :: second :: rest => some (first, second :: rest)

/-! ## Classification of an attempt, in the words of the specification -/

/-- An attempt is a matched failure when the child exited with code exactly
1 and at least one configured pattern compiles and matches the captured
standard output. -/
def matchedFailure (env : Env) (patterns : List String) (a : Attempt) : Bool :=
  decide (a.err = some (GoError.exitError 1)) &&
    patterns.any (fun p =>
      match env.matchString p a.stdout with
      | Except.ok true => true
      | _ => false)

/-! ## Stand-ins for the collaborators, for concrete runs -/

/-- A duration parser that knows the strings used in the scenarios. -/
def demoParse (s : String) : Except GoError Duration :=
  if s = "1ms" then Except.ok 1000000
  else if s = "5s" then Except.ok 5000000000
  else Except.error (GoError.other ("time: invalid duration " ++ s))

/-- A matcher for literal patterns (substring search); the pattern `(` does
not compile. -/
def demoMatch (pattern s : String) : Except GoError Bool :=
  if pattern = "(" then Except.error (GoError.other "error parsing regexp: missing closing )")
  else Except.ok (decide (pattern.data <:+: s.data))

/-- An environment whose `k`-th child execution gives `f k`. -/
def demoEnv (f : Nat → Attempt) : Env :=
  { parseDuration := demoParse, matchString := demoMatch, run := fun k _ _ => f k }

/-- The configuration `retries=N, sleep=1ms, regex=["not found"]`. -/
def demoConfig (N : Int) : AppConfig :=
  { Retries := N, Sleep := "1ms", Regex := ["not found"], Min := "10s", Max := "10s" }

/-- A child that exits with `code` printing `out`. -/
def exits (code : Int) (out : String) : Attempt :=
  { err := some (GoError.exitError code), stdout := out, stderr := "" }

/-- A child that exits with code 0 printing `out`. -/
def succeeds (out : String) : Attempt :=
  { err := none, stdout := out, stderr := "" }

/-- A command whose first two executions give `a` and whose later executions
exit with code 0 printing "ok". -/
def failTwiceWith (a : Attempt) (k : Nat) : Attempt :=
  if k < 2 then a else succeeds "ok"

/-! ## Lemmas on traces -/

theorem invocations_append (a b : List Event) :
    invocations (a ++ b) = invocations a + invocations b := by
  induction a with
  | nil => simp [invocations]
  | cons e t ih => cases e <;> simp [invocations, ih]; omega

theorem sleeps_append (a b : List Event) : sleeps (a ++ b) = sleeps a ++ sleeps b := by
  induction a with
  | nil => simp [sleeps]
  | cons e t ih => cases e <;> simp [sleeps, ih]

theorem printed_append (a b : List Event) : printed (a ++ b) = printed a ++ printed b := by
  induction a with
  | nil => simp [printed]
  | cons e t ih => cases e <;> simp [printed, ih]

/-! ## Lemmas on `runCommand` -/

theorem matchedBy_eq (env : Env) (p s : String) :
    matchedBy env p s =
      (match env.matchString p s with
        | Except.ok true => true
        | _ => false) := by
  unfold matchedBy
  cases h : env.matchString p s with
  | error e => rfl
  | ok b => cases b <;> rfl

theorem patternLoop_eq (env : Env) (out : String) (err : GoError) (ps : List String) :
    runCommand.patternLoop env out err ps =
      if ps.any (fun p => matchedBy env p out) then some ([Event.println out], some err)
      else none := by
  induction ps with
  | nil => simp [runCommand.patternLoop]
  | cons p rest ih =>
    by_cases h : matchedBy env p out = true
    · simp [runCommand.patternLoop, h]
    · simp [runCommand.patternLoop, h, ih]

/-- The events of `runCommand` do not depend on the classification, and the
returned error is the child's error exactly for a matched failure. -/
theorem runCommand_eq (env : Env) (k : Nat) (name : String) (ps args : List String) :
    runCommand env k name ps args =
      ([Event.exec name args, Event.println (env.run k name args).stdout],
        if matchedFailure env ps (env.run k name args) then some (GoError.exitError 1)
        else none) := by
  have hany : (ps.any fun p => matchedBy env p (env.run k name args).stdout) =
      ps.any (fun p =>
        match env.matchString p (env.run k name args).stdout with
        | Except.ok true => true
        | _ => false) := by
    congr 1
    funext p
    exact matchedBy_eq env p _
  unfold runCommand matchedFailure
  cases herr : (env.run k name args).err with
  | none => simp [herr]
  | some e =>
    cases e with
    | other m => simp [herr]
    | exitError code =>
      by_cases hc : code = 1
      · subst hc
        simp only [if_true, patternLoop_eq, hany]
        by_cases hm : (ps.any fun p =>
            match env.matchString p (env.run k name args).stdout with
            | Except.ok true => true
            | _ => false) = true
        · simp [herr, hm]
        · simp [herr, hm]
      · simp [herr, hc]

/-! ## Lemmas on the retry loop -/

/-- One iteration of the loop on a matched failure: print, sleep, go on. -/
theorem loop_succ_matched (env : Env) (command : String) (args : List String)
    (cfg : AppConfig) (d : Duration) (n i : Nat) (e : Option GoError)
    (h : matchedFailure env cfg.Regex (env.run i command args) = true) :
    executeCommand.loop env command args cfg d (n + 1) i e =
      ([Event.exec command args, Event.println (env.run i command args).stdout,
          Event.printf (retryMessage i cfg), Event.sleep d] ++
        (executeCommand.loop env command args cfg d n (i + 1) (some (GoError.exitError 1))).1,
        (executeCommand.loop env command args cfg d n (i + 1) (some (GoError.exitError 1))).2) := by
  simp only [executeCommand.loop, runCommand_eq, h, if_true]
  simp

/-- One iteration of the loop on any other attempt: `break`. -/
theorem loop_succ_other (env : Env) (command : String) (args : List String)
    (cfg : AppConfig) (d : Duration) (n i : Nat) (e : Option GoError)
    (h : matchedFailure env cfg.Regex (env.run i command args) = false) :
    executeCommand.loop env command args cfg d (n + 1) i e =
      ([Event.exec command args, Event.println (env.run i command args).stdout], none) := by
  simp [executeCommand.loop, runCommand_eq, h]

theorem loop_all (env : Env) (command : String) (args : List String)
    (cfg : AppConfig) (d : Duration) (n : Nat) :
    ∀ (i : Nat) (e : Option GoError),
      (∀ j, j < n → matchedFailure env cfg.Regex (env.run (i + j) command args) = true) →
      invocations (executeCommand.loop env command args cfg d n i e).1 = n ∧
      sleeps (executeCommand.loop env command args cfg d n i e).1 = List.replicate n d ∧
      (executeCommand.loop env command args cfg d n i e).2 =
        (if n = 0 then e else some (GoError.exitError 1)) := by
  induction n with
  | zero => intro i e _; simp [executeCommand.loop, invocations, sleeps]
  | succ n ih =>
    intro i e h
    have h0 : matchedFailure env cfg.Regex (env.run i command args) = true := by
      simpa using h 0 (Nat.succ_pos n)
    have hrest : ∀ j, j < n →
        matchedFailure env cfg.Regex (env.run (i + 1 + j) command args) = true := by
      intro j hj
      have := h (j + 1) (Nat.succ_lt_succ hj)
      rwa [show i + (j + 1) = i + 1 + j by omega] at this
    obtain ⟨h1, h2, h3⟩ := ih (i + 1) (some (GoError.exitError 1)) hrest
    rw [loop_succ_matched env command args cfg d n i e h0]
    refine ⟨?_, ?_, ?_⟩
    · simp only [invocations_append, h1]
      simp [invocations]
      omega
    · simp only [sleeps_append, h2]
      simp [sleeps, List.replicate_succ]
    · simp only [h3]
      by_cases hn : n = 0 <;> simp [hn]

theorem loop_stop (env : Env) (command : String) (args : List String)
    (cfg : AppConfig) (d : Duration) (m : Nat) :
    ∀ (n i : Nat) (e : Option GoError), m < n →
      (∀ j, j < m → matchedFailure env cfg.Regex (env.run (i + j) command args) = true) →
      matchedFailure env cfg.Regex (env.run (i + m) command args) = false →
      invocations (executeCommand.loop env command args cfg d n i e).1 = m + 1 ∧
      sleeps (executeCommand.loop env command args cfg d n i e).1 = List.replicate m d ∧
      (executeCommand.loop env command args cfg d n i e).2 = none := by
  induction m with
  | zero =>
    intro n i e hn _ hstop
    obtain ⟨n, rfl⟩ : ∃ k, n = k + 1 := ⟨n - 1, by omega⟩
    rw [loop_succ_other env command args cfg d n i e (by simpa using hstop)]
    simp [invocations, sleeps]
  | succ m ih =>
    intro n i e hn h hstop
    obtain ⟨n, rfl⟩ : ∃ k, n = k + 1 := ⟨n - 1, by omega⟩
    have h0 : matchedFailure env cfg.Regex (env.run i command args) = true := by
      simpa using h 0 (Nat.succ_pos m)
    have hrest : ∀ j, j < m →
        matchedFailure env cfg.Regex (env.run (i + 1 + j) command args) = true := by
      intro j hj
      have := h (j + 1) (Nat.succ_lt_succ hj)
      rwa [show i + (j + 1) = i + 1 + j by omega] at this
    have hstop2 : matchedFailure env cfg.Regex (env.run (i + 1 + m) command args) = false := by
      rwa [show i + (m + 1) = i + 1 + m by omega] at hstop
    obtain ⟨h1, h2, h3⟩ := ih n (i + 1) (some (GoError.exitError 1)) (by omega) hrest hstop2
    rw [loop_succ_matched env command args cfg d n i e h0]
    refine ⟨?_, ?_, h3⟩
    · simp only [invocations_append, h1]
      simp [invocations]
      omega
    · simp only [sleeps_append, h2]
      simp [sleeps, List.replicate_succ]

/-- Either the first `n` values of `p` are all true, or there is a first
false one among them. -/
theorem all_or_first_false (p : Nat → Bool) (n : Nat) :
    (∀ j, j < n → p j = true) ∨
      ∃ m, m < n ∧ (∀ j, j < m → p j = true) ∧ p m = false := by
  induction n with
  | zero => left; intro j hj; omega
  | succ n ih =>
    rcases ih with hall | ⟨m, hm, hpre, hfalse⟩
    · cases hp : p n with
      | true =>
        left
        intro j hj
        rcases Nat.lt_succ_iff_lt_or_eq.mp hj with hlt | heq
        · exact hall j hlt
        · rw [heq]; exact hp
      | false => exact Or.inr ⟨n, Nat.lt_succ_self n, hall, hp⟩
    · exact Or.inr ⟨m, Nat.lt_succ_of_lt hm, hpre, hfalse⟩

/-- The loop never runs the command more often than the loop condition allows. -/
theorem loop_invocations_le (env : Env) (command : String) (args : List String)
    (cfg : AppConfig) (d : Duration) (n i : Nat) (e : Option GoError) :
    invocations (executeCommand.loop env command args cfg d n i e).1 ≤ n := by
  rcases all_or_first_false
    (fun j => matchedFailure env cfg.Regex (env.run (i + j) command args)) n with hall | ⟨m, hm, hpre, hfalse⟩
  · exact le_of_eq (loop_all env command args cfg d n i e hall).1
  · rw [(loop_stop env command args cfg d m n i e hm hpre hfalse).1]
    omega

/-- Every sleep of the loop lasts `d`, and there is one sleep per invocation,
except possibly the last invocation. -/
theorem loop_sleeps (env : Env) (command : String) (args : List String)
    (cfg : AppConfig) (d : Duration) (n i : Nat) (e : Option GoError) :
    ∃ s, sleeps (executeCommand.loop env command args cfg d n i e).1 = List.replicate s d ∧
      s ≤ invocations (executeCommand.loop env command args cfg d n i e).1 ∧
      invocations (executeCommand.loop env command args cfg d n i e).1 ≤ s + 1 := by
  rcases all_or_first_false
    (fun j => matchedFailure env cfg.Regex (env.run (i + j) command args)) n with hall | ⟨m, hm, hpre, hfalse⟩
  · obtain ⟨h1, h2, _⟩ := loop_all env command args cfg d n i e hall
    exact ⟨n, h2, by omega, by omega⟩
  · obtain ⟨h1, h2, _⟩ := loop_stop env command args cfg d m n i e hm hpre hfalse
    exact ⟨m, h2, by omega, by omega⟩

/-- When the loop stops at the first attempt that is not a matched failure,
the last event is the print of that attempt: nothing is slept after it. -/
theorem loop_stop_last (env : Env) (command : String) (args : List String)
    (cfg : AppConfig) (d : Duration) (m : Nat) :
    ∀ (n i : Nat) (e : Option GoError), m < n →
      (∀ j, j < m → matchedFailure env cfg.Regex (env.run (i + j) command args) = true) →
      matchedFailure env cfg.Regex (env.run (i + m) command args) = false →
      (executeCommand.loop env command args cfg d n i e).1.getLast? =
        some (Event.println (env.run (i + m) command args).stdout) := by
  induction m with
  | zero =>
    intro n i e hn _ hstop
    obtain ⟨n, rfl⟩ : ∃ k, n = k + 1 := ⟨n - 1, by omega⟩
    rw [loop_succ_other env command args cfg d n i e (by simpa using hstop)]
    simp
  | succ m ih =>
    intro n i e hn h hstop
    obtain ⟨n, rfl⟩ : ∃ k, n = k + 1 := ⟨n - 1, by omega⟩
    have h0 : matchedFailure env cfg.Regex (env.run i command args) = true := by
      simpa using h 0 (Nat.succ_pos m)
    have hrest : ∀ j, j < m →
        matchedFailure env cfg.Regex (env.run (i + 1 + j) command args) = true := by
      intro j hj
      have := h (j + 1) (Nat.succ_lt_succ hj)
      rwa [show i + (j + 1) = i + 1 + j by omega] at this
    have hstop2 : matchedFailure env cfg.Regex (env.run (i + 1 + m) command args) = false := by
      rwa [show i + (m + 1) = i + 1 + m by omega] at hstop
    have hlast := ih n (i + 1) (some (GoError.exitError 1)) (by omega) hrest hstop2
    rw [loop_succ_matched env command args cfg d n i e h0]
    simp only [List.getLast?_append, hlast]
    rw [show i + (m + 1) = i + 1 + m by omega]
    rfl

/-! ## Lemmas on `executeCommand` -/

theorem matchedFailure_iff (env : Env) (ps : List String) (a : Attempt) :
    matchedFailure env ps a = true ↔
      a.err = some (GoError.exitError 1) ∧
        ∃ p, p ∈ ps ∧ env.matchString p a.stdout = Except.ok true := by
  unfold matchedFailure
  simp only [Bool.and_eq_true, decide_eq_true_eq, List.any_eq_true]
  constructor
  · rintro ⟨h1, p, hp, hm⟩
    refine ⟨h1, p, hp, ?_⟩
    cases hr : env.matchString p a.stdout with
    | error e => simp [hr] at hm
    | ok b => cases b <;> simp [hr] at hm ⊢
  · rintro ⟨h1, p, hp, hm⟩
    exact ⟨h1, p, hp, by simp [hm]⟩

theorem executeCommand_of_none (env : Env) (command : String) (args : List String)
    (cfg : AppConfig) (d : Duration) (hd : env.parseDuration cfg.Sleep = Except.ok d)
    (h : (executeCommand.loop env command args cfg d cfg.Retries.toNat 0 none).2 = none) :
    executeCommand env command args cfg =
      { trace := (executeCommand.loop env command args cfg d cfg.Retries.toNat 0 none).1,
        outcome := Outcome.returned none } := by
  simp [executeCommand, hd, h]

theorem executeCommand_of_some (env : Env) (command : String) (args : List String)
    (cfg : AppConfig) (d : Duration) (e : GoError)
    (hd : env.parseDuration cfg.Sleep = Except.ok d)
    (h : (executeCommand.loop env command args cfg d cfg.Retries.toNat 0 none).2 = some e) :
    executeCommand env command args cfg =
      { trace := (executeCommand.loop env command args cfg d cfg.Retries.toNat 0 none).1 ++
          [Event.println "Command execution failed after retries."],
        outcome := Outcome.exited 1 } := by
  simp [executeCommand, hd, h]

/-- All attempts allowed by the loop condition are matched failures: the
command runs `Retries` times, each run is followed by a sleep, and the
process exits with code 1. -/
theorem executeCommand_all_matched (env : Env) (command : String) (args : List String)
    (cfg : AppConfig) (d : Duration) (hd : env.parseDuration cfg.Sleep = Except.ok d)
    (hN : 1 ≤ cfg.Retries)
    (hm : ∀ j, j < cfg.Retries.toNat →
      matchedFailure env cfg.Regex (env.run j command args) = true) :
    invocations (executeCommand env command args cfg).trace = cfg.Retries.toNat ∧
    sleeps (executeCommand env command args cfg).trace = List.replicate cfg.Retries.toNat d ∧
    (executeCommand env command args cfg).outcome = Outcome.exited 1 := by
  have hm2 : ∀ j, j < cfg.Retries.toNat →
      matchedFailure env cfg.Regex (env.run (0 + j) command args) = true := by
    intro j hj; simpa using hm j hj
  obtain ⟨h1, h2, h3⟩ := loop_all env command args cfg d cfg.Retries.toNat 0 none hm2
  have hne : cfg.Retries.toNat ≠ 0 := by omega
  rw [if_neg hne] at h3
  rw [executeCommand_of_some env command args cfg d _ hd h3]
  refine ⟨?_, ?_, rfl⟩
  · simp [invocations_append, h1, invocations]
  · simp [sleeps_append, h2, sleeps]

/-- The attempt at 0-based position `m` is the first one that is not a
matched failure, and the loop condition allows it: the command runs `m + 1`
times, sleeps `m` times, and `executeCommand` returns `nil`. -/
theorem executeCommand_first_other (env : Env) (command : String) (args : List String)
    (cfg : AppConfig) (d : Duration) (m : Nat)
    (hd : env.parseDuration cfg.Sleep = Except.ok d)
    (hmN : m < cfg.Retries.toNat)
    (hpre : ∀ j, j < m → matchedFailure env cfg.Regex (env.run j command args) = true)
    (hstop : matchedFailure env cfg.Regex (env.run m command args) = false) :
    invocations (executeCommand env command args cfg).trace = m + 1 ∧
    sleeps (executeCommand env command args cfg).trace = List.replicate m d ∧
    (executeCommand env command args cfg).outcome = Outcome.returned none := by
  have hpre2 : ∀ j, j < m →
      matchedFailure env cfg.Regex (env.run (0 + j) command args) = true := by
    intro j hj; simpa using hpre j hj
  have hstop2 : matchedFailure env cfg.Regex (env.run (0 + m) command args) = false := by
    simpa using hstop
  obtain ⟨h1, h2, h3⟩ :=
    loop_stop env command args cfg d m cfg.Retries.toNat 0 none hmN hpre2 hstop2
  rw [executeCommand_of_none env command args cfg d hd h3]
  exact ⟨h1, h2, rfl⟩

/-- The loop condition allows no attempt at all. -/
theorem executeCommand_no_attempt (env : Env) (command : String) (args : List String)
    (cfg : AppConfig) (d : Duration) (hd : env.parseDuration cfg.Sleep = Except.ok d)
    (hN : cfg.Retries ≤ 0) :
    executeCommand env command args cfg = { trace := [], outcome := Outcome.returned none } := by
  have h0 : cfg.Retries.toNat = 0 := by omega
  simp [executeCommand, hd, h0, executeCommand.loop]

/-! ## The claims -/

/-- C1 (as the code behaves): for every `Retries` N >= 1 and every parsable
sleep, if each of the N attempts exits with code exactly 1 and its captured
standard output matches at least one configured pattern, then the attempt
is retried: `executeCommand` invokes `runCommand` exactly N times, sleeps
the configured duration after each of them, and reports overall failure
(exit code 1). -/
theorem matched_failure_is_retried (env : Env) (command : String) (args : List String)
    (cfg : AppConfig) (d : Duration)
    (hN : 1 ≤ cfg.Retries)
    (hd : env.parseDuration cfg.Sleep = Except.ok d)
    (hm : ∀ i : Nat, (i : Int) < cfg.Retries →
      (env.run i command args).err = some (GoError.exitError 1) ∧
      ∃ p, p ∈ cfg.Regex ∧
        env.matchString p (env.run i command args).stdout = Except.ok true) :
    invocations (executeCommand env command args cfg).trace = cfg.Retries.toNat ∧
    sleeps (executeCommand env command args cfg).trace = List.replicate cfg.Retries.toNat d ∧
    (executeCommand env command args cfg).outcome = Outcome.exited 1 ∧
    exitCode (executeCommand env command args cfg).outcome = 1 := by
  have hall : ∀ j, j < cfg.Retries.toNat →
      matchedFailure env cfg.Regex (env.run j command args) = true := by
    intro j hj
    exact (matchedFailure_iff env cfg.Regex _).mpr (hm j (by omega))
  obtain ⟨h1, h2, h3⟩ := executeCommand_all_matched env command args cfg d hd hN hall
  exact ⟨h1, h2, h3, by rw [h3]; rfl⟩

/-- C1, at `retries=3, sleep=1ms, regex=["not found"]` with a command that
exits 1 printing "file not found": three invocations and three sleeps. -/
theorem matched_failure_is_retried_witness :
    invocations (executeCommand (demoEnv fun _ => exits 1 "file not found") "cat" ["missing"]
      (demoConfig 3)).trace = (demoConfig 3).Retries.toNat ∧
    sleeps (executeCommand (demoEnv fun _ => exits 1 "file not found") "cat" ["missing"]
      (demoConfig 3)).trace = List.replicate (demoConfig 3).Retries.toNat 1000000 ∧
    (executeCommand (demoEnv fun _ => exits 1 "file not found") "cat" ["missing"]
      (demoConfig 3)).outcome = Outcome.exited 1 ∧
    exitCode (executeCommand (demoEnv fun _ => exits 1 "file not found") "cat" ["missing"]
      (demoConfig 3)).outcome = 1 :=
  matched_failure_is_retried (demoEnv fun _ => exits 1 "file not found") "cat" ["missing"]
    (demoConfig 3) 1000000 (by decide) rfl
    (fun _ _ => ⟨rfl, "not found", by simp [demoConfig], rfl⟩)

/-- C1 as stated fails: with `retries=3, sleep=1ms, regex=["not found"]` and
a command that exits 1 printing "file not found" (the pattern matches), the
command is invoked 3 times, not once, and three sleeps are performed. -/
theorem matched_failure_stops_counterexample :
    (1 : Int) ≤ (demoConfig 3).Retries ∧
    (demoConfig 3).Regex ≠ [] ∧
    (exits 1 "file not found").err = some (GoError.exitError 1) ∧
    matchedBy (demoEnv fun _ => exits 1 "file not found") "not found" "file not found" = true ∧
    invocations (executeCommand (demoEnv fun _ => exits 1 "file not found") "cat" ["missing"]
      (demoConfig 3)).trace = 3 ∧
    sleeps (executeCommand (demoEnv fun _ => exits 1 "file not found") "cat" ["missing"]
      (demoConfig 3)).trace = [1000000, 1000000, 1000000] ∧
    ¬ (invocations (executeCommand (demoEnv fun _ => exits 1 "file not found") "cat" ["missing"]
        (demoConfig 3)).trace = 1 ∧
      sleeps (executeCommand (demoEnv fun _ => exits 1 "file not found") "cat" ["missing"]
        (demoConfig 3)).trace = []) := by
  decide

/-- C2 (as the code behaves): for every `Retries` N >= 1 and every pattern
list, if every attempt of the command exits with a non-zero code other
than 1, then `executeCommand` invokes `runCommand` exactly once, performs
no sleep, and returns `nil` (exit code 0). -/
theorem other_exit_code_is_not_retried (env : Env) (command : String) (args : List String)
    (cfg : AppConfig) (d : Duration)
    (hN : 1 ≤ cfg.Retries)
    (hd : env.parseDuration cfg.Sleep = Except.ok d)
    (hc : ∀ i : Nat, ∃ code : Int, code ≠ 0 ∧ code ≠ 1 ∧
      (env.run i command args).err = some (GoError.exitError code)) :
    invocations (executeCommand env command args cfg).trace = 1 ∧
    sleeps (executeCommand env command args cfg).trace = [] ∧
    (executeCommand env command args cfg).outcome = Outcome.returned none ∧
    exitCode (executeCommand env command args cfg).outcome = 0 := by
  have hstop : matchedFailure env cfg.Regex (env.run 0 command args) = false := by
    obtain ⟨code, _, h1, herr⟩ := hc 0
    cases hmf : matchedFailure env cfg.Regex (env.run 0 command args) with
    | false => rfl
    | true =>
      have := ((matchedFailure_iff env cfg.Regex _).mp hmf).1
      rw [herr] at this
      injection this with h
      injection h with h
      exact absurd h h1
  obtain ⟨h1, h2, h3⟩ := executeCommand_first_other env command args cfg d 0 hd (by omega)
    (fun j hj => absurd hj (Nat.not_lt_zero j)) hstop
  exact ⟨h1, h2, h3, by rw [h3]; rfl⟩

/-- C2, at `retries=3, sleep=1ms` with a command that always exits 2. -/
theorem other_exit_code_is_not_retried_witness :
    invocations (executeCommand (demoEnv fun _ => exits 2 "") "false" [] (demoConfig 3)).trace = 1 ∧
    sleeps (executeCommand (demoEnv fun _ => exits 2 "") "false" [] (demoConfig 3)).trace = [] ∧
    (executeCommand (demoEnv fun _ => exits 2 "") "false" [] (demoConfig 3)).outcome =
      Outcome.returned none ∧
    exitCode (executeCommand (demoEnv fun _ => exits 2 "") "false" [] (demoConfig 3)).outcome = 0 :=
  other_exit_code_is_not_retried (demoEnv fun _ => exits 2 "") "false" [] (demoConfig 3) 1000000
    (by decide) rfl (fun _ => ⟨2, by decide, by decide, rfl⟩)

/-- C2 as stated fails: with `retries=3, sleep=1ms` and a command that
always exits 2, the command is invoked once, not 3 times, and the reported
exit code is 0, not 1. -/
theorem other_exit_code_counterexample :
    (1 : Int) ≤ (demoConfig 3).Retries ∧
    (exits 2 "").err = some (GoError.exitError 2) ∧
    invocations (executeCommand (demoEnv fun _ => exits 2 "") "false" [] (demoConfig 3)).trace = 1 ∧
    invocations (executeCommand (demoEnv fun _ => exits 2 "") "false" [] (demoConfig 3)).trace ≠ 3 ∧
    exitCode (executeCommand (demoEnv fun _ => exits 2 "") "false" [] (demoConfig 3)).outcome = 0 ∧
    exitCode (executeCommand (demoEnv fun _ => exits 2 "") "false" [] (demoConfig 3)).outcome ≠ 1 := by
  decide

/-- C3 (as the code behaves): for every `Retries` N >= 1 and every k with
1 <= k <= N, if attempts 1..k-1 are matched failures (exit code 1 with a
pattern matching the captured standard output, the only failures the code
retries) and attempt k exits with code 0, then `executeCommand` invokes
`runCommand` exactly k times, returns `nil` (exit code 0), performs exactly
k-1 sleeps, and the last event is the print of the k-th attempt's output:
no sleep follows the successful attempt. -/
theorem success_after_matched_failures (env : Env) (command : String) (args : List String)
    (cfg : AppConfig) (d : Duration) (k : Nat)
    (hk : 1 ≤ k) (hkN : (k : Int) ≤ cfg.Retries)
    (hd : env.parseDuration cfg.Sleep = Except.ok d)
    (hfail : ∀ i : Nat, i + 1 < k →
      (env.run i command args).err = some (GoError.exitError 1) ∧
      ∃ p, p ∈ cfg.Regex ∧
        env.matchString p (env.run i command args).stdout = Except.ok true)
    (hsucc : (env.run (k - 1) command args).err = none) :
    invocations (executeCommand env command args cfg).trace = k ∧
    (executeCommand env command args cfg).outcome = Outcome.returned none ∧
    exitCode (executeCommand env command args cfg).outcome = 0 ∧
    sleeps (executeCommand env command args cfg).trace = List.replicate (k - 1) d ∧
    (executeCommand env command args cfg).trace.getLast? =
      some (Event.println (env.run (k - 1) command args).stdout) := by
  have hpre : ∀ j, j < k - 1 →
      matchedFailure env cfg.Regex (env.run j command args) = true := by
    intro j hj
    exact (matchedFailure_iff env cfg.Regex _).mpr (hfail j (by omega))
  have hstop : matchedFailure env cfg.Regex (env.run (k - 1) command args) = false := by
    cases hmf : matchedFailure env cfg.Regex (env.run (k - 1) command args) with
    | false => rfl
    | true =>
      have := ((matchedFailure_iff env cfg.Regex _).mp hmf).1
      rw [hsucc] at this
      exact absurd this (by simp)
  have hlt : k - 1 < cfg.Retries.toNat := by omega
  obtain ⟨h1, h2, h3⟩ :=
    executeCommand_first_other env command args cfg d (k - 1) hd hlt hpre hstop
  have hpre2 : ∀ j, j < k - 1 →
      matchedFailure env cfg.Regex (env.run (0 + j) command args) = true := by
    intro j hj; simpa using hpre j hj
  have hstop2 : matchedFailure env cfg.Regex (env.run (0 + (k - 1)) command args) = false := by
    simpa using hstop
  have hlast := loop_stop_last env command args cfg d (k - 1) cfg.Retries.toNat 0 none hlt
    hpre2 hstop2
  have hnone := (loop_stop env command args cfg d (k - 1) cfg.Retries.toNat 0 none hlt
    hpre2 hstop2).2.2
  refine ⟨by omega, h3, by rw [h3]; rfl, h2, ?_⟩
  rw [executeCommand_of_none env command args cfg d hd hnone]
  simpa using hlast

/-- C3, at `retries=5, sleep=1ms, regex=["not found"]` with a command that
exits 1 printing "file not found" twice and exits 0 on the 3rd call. -/
theorem success_after_matched_failures_witness :
    invocations (executeCommand (demoEnv (failTwiceWith (exits 1 "file not found"))) "cat" ["f"]
      (demoConfig 5)).trace = 3 ∧
    (executeCommand (demoEnv (failTwiceWith (exits 1 "file not found"))) "cat" ["f"]
      (demoConfig 5)).outcome = Outcome.returned none ∧
    exitCode (executeCommand (demoEnv (failTwiceWith (exits 1 "file not found"))) "cat" ["f"]
      (demoConfig 5)).outcome = 0 ∧
    sleeps (executeCommand (demoEnv (failTwiceWith (exits 1 "file not found"))) "cat" ["f"]
      (demoConfig 5)).trace = List.replicate (3 - 1) 1000000 ∧
    (executeCommand (demoEnv (failTwiceWith (exits 1 "file not found"))) "cat" ["f"]
      (demoConfig 5)).trace.getLast? =
      some (Event.println
        ((demoEnv (failTwiceWith (exits 1 "file not found"))).run (3 - 1) "cat" ["f"]).stdout) :=
  success_after_matched_failures (demoEnv (failTwiceWith (exits 1 "file not found"))) "cat" ["f"]
    (demoConfig 5) 1000000 3 (by decide) (by decide) rfl
    (fun i hi => by
      have h2 : i < 2 := by omega
      simp only [demoEnv, failTwiceWith, h2, if_true]
      exact ⟨rfl, "not found", by simp [demoConfig], rfl⟩)
    rfl

/-- C3 as stated fails: with `retries=5, sleep=1ms`, a command that exits 2
on the first two calls (non-zero, no pattern matched) and 0 on the 3rd is
invoked once, not 3 times: the first failure already ends the loop. -/
theorem success_on_third_call_counterexample :
    (3 : Int) ≤ (demoConfig 5).Retries ∧
    (failTwiceWith (exits 2 "") 0).err = some (GoError.exitError 2) ∧
    (failTwiceWith (exits 2 "") 1).err = some (GoError.exitError 2) ∧
    (failTwiceWith (exits 2 "") 2).err = none ∧
    matchedFailure (demoEnv (failTwiceWith (exits 2 ""))) (demoConfig 5).Regex
      (failTwiceWith (exits 2 "") 0) = false ∧
    invocations (executeCommand (demoEnv (failTwiceWith (exits 2 ""))) "job" []
      (demoConfig 5)).trace = 1 ∧
    invocations (executeCommand (demoEnv (failTwiceWith (exits 2 ""))) "job" []
      (demoConfig 5)).trace ≠ 3 := by
  decide

/-- C4 (as the code behaves): for every `Retries` N >= 1 and every pattern
list, if every attempt of the command exits with code exactly 1 and its
captured standard output matches none of the configured patterns, then the
attempt is not retried: `executeCommand` invokes `runCommand` exactly once,
performs no sleep, and returns `nil` (exit code 0). -/
theorem unmatched_exit_one_is_not_retried (env : Env) (command : String) (args : List String)
    (cfg : AppConfig) (d : Duration)
    (hN : 1 ≤ cfg.Retries)
    (hd : env.parseDuration cfg.Sleep = Except.ok d)
    (hu : ∀ i : Nat, (env.run i command args).err = some (GoError.exitError 1) ∧
      ∀ p, p ∈ cfg.Regex →
        env.matchString p (env.run i command args).stdout ≠ Except.ok true) :
    invocations (executeCommand env command args cfg).trace = 1 ∧
    sleeps (executeCommand env command args cfg).trace = [] ∧
    (executeCommand env command args cfg).outcome = Outcome.returned none ∧
    exitCode (executeCommand env command args cfg).outcome = 0 := by
  have hstop : matchedFailure env cfg.Regex (env.run 0 command args) = false := by
    cases hmf : matchedFailure env cfg.Regex (env.run 0 command args) with
    | false => rfl
    | true =>
      obtain ⟨_, p, hp, hmatch⟩ := (matchedFailure_iff env cfg.Regex _).mp hmf
      exact absurd hmatch ((hu 0).2 p hp)
  obtain ⟨h1, h2, h3⟩ := executeCommand_first_other env command args cfg d 0 hd (by omega)
    (fun j hj => absurd hj (Nat.not_lt_zero j)) hstop
  exact ⟨h1, h2, h3, by rw [h3]; rfl⟩

/-- C4, at `retries=3, sleep=1ms, regex=["not found"]` with a command that
exits 1 printing "permission denied". -/
theorem unmatched_exit_one_is_not_retried_witness :
    invocations (executeCommand (demoEnv fun _ => exits 1 "permission denied") "cat" ["f"]
      (demoConfig 3)).trace = 1 ∧
    sleeps (executeCommand (demoEnv fun _ => exits 1 "permission denied") "cat" ["f"]
      (demoConfig 3)).trace = [] ∧
    (executeCommand (demoEnv fun _ => exits 1 "permission denied") "cat" ["f"]
      (demoConfig 3)).outcome = Outcome.returned none ∧
    exitCode (executeCommand (demoEnv fun _ => exits 1 "permission denied") "cat" ["f"]
      (demoConfig 3)).outcome = 0 :=
  unmatched_exit_one_is_not_retried (demoEnv fun _ => exits 1 "permission denied") "cat" ["f"]
    (demoConfig 3) 1000000 (by decide) rfl
    (fun _ => ⟨rfl, fun p hp => by
      have hp2 : p = "not found" := by simpa [demoConfig] using hp
      subst hp2
      intro h
      have h2 : demoMatch "not found" "permission denied" = Except.ok false := rfl
      have h3 : (demoEnv fun _ => exits 1 "permission denied").matchString "not found"
          "permission denied" = Except.ok false := h2
      have h4 : (Except.ok false : Except GoError Bool) = Except.ok true := h3.symm.trans h
      injection h4 with h5
      exact Bool.noConfusion h5⟩)

/-- C4 as stated fails: with `retries=3, sleep=1ms, regex=["not found"]`, a
command that always exits 1 printing "permission denied" (no pattern
matches) is invoked once, not 3 times, no sleep is performed, and the
reported exit code is 0, not 1. -/
theorem unmatched_exit_one_counterexample :
    (1 : Int) ≤ (demoConfig 3).Retries ∧
    (exits 1 "permission denied").err = some (GoError.exitError 1) ∧
    matchedBy (demoEnv fun _ => exits 1 "permission denied") "not found" "permission denied"
      = false ∧
    invocations (executeCommand (demoEnv fun _ => exits 1 "permission denied") "cat" ["f"]
      (demoConfig 3)).trace = 1 ∧
    invocations (executeCommand (demoEnv fun _ => exits 1 "permission denied") "cat" ["f"]
      (demoConfig 3)).trace ≠ 3 ∧
    sleeps (executeCommand (demoEnv fun _ => exits 1 "permission denied") "cat" ["f"]
      (demoConfig 3)).trace = [] ∧
    exitCode (executeCommand (demoEnv fun _ => exits 1 "permission denied") "cat" ["f"]
      (demoConfig 3)).outcome ≠ 1 := by
  decide

/-- C5: for every configuration (any integer `Retries`, any pattern list,
any sleep string) and every sequence of attempt results, one call of
`executeCommand` invokes `runCommand` at most max(Retries, 0) times.  The
embedding is a total function, so the retry loop always terminates. -/
theorem invocations_le_retries (env : Env) (command : String) (args : List String)
    (cfg : AppConfig) :
    invocations (executeCommand env command args cfg).trace ≤ (max cfg.Retries 0).toNat := by
  have hmax : (max cfg.Retries 0).toNat = cfg.Retries.toNat := by
    rcases le_total cfg.Retries 0 with h | h
    · rw [max_eq_right h]; omega
    · rw [max_eq_left h]
  rw [hmax]
  cases hd : env.parseDuration cfg.Sleep with
  | error e => simp [executeCommand, hd, invocations]
  | ok d =>
    have hle := loop_invocations_le env command args cfg d cfg.Retries.toNat 0 none
    cases h2 : (executeCommand.loop env command args cfg d cfg.Retries.toNat 0 none).2 with
    | none =>
      rw [executeCommand_of_none env command args cfg d hd h2]
      exact hle
    | some e =>
      rw [executeCommand_of_some env command args cfg d e hd h2]
      simpa [invocations_append, invocations] using hle

/-- C6: for every command, every pattern list and every attempt result
(exit 0, exit 1 with or without a matching pattern, any other exit code, a
launch failure), one call of `runCommand` prints the captured standard
output exactly once: the `Println` calls of the call are the single line
holding the captured output, also when several patterns match. -/
theorem runCommand_prints_output_once (env : Env) (k : Nat) (name : String)
    (matchPatterns args : List String) :
    printed (runCommand env k name matchPatterns args).1 = [(env.run k name args).stdout] := by
  rw [runCommand_eq]
  rfl

/-- C7: for every `Retries` N >= 1 and every parsed sleep interval d >= 0, in
a run where all N attempts are made and fail, every sleep performed by
`executeCommand` has duration exactly d and the total time slept is at
least (N-1) * d. -/
theorem sleeps_of_failed_run (env : Env) (command : String) (args : List String)
    (cfg : AppConfig) (d : Duration)
    (hN : 1 ≤ cfg.Retries)
    (hd : env.parseDuration cfg.Sleep = Except.ok d)
    (hd0 : 0 ≤ d)
    (hrun : invocations (executeCommand env command args cfg).trace = cfg.Retries.toNat)
    (_hfail : ∀ i : Nat, (i : Int) < cfg.Retries → (env.run i command args).err ≠ none) :
    (∀ x, x ∈ sleeps (executeCommand env command args cfg).trace → x = d) ∧
    (cfg.Retries - 1) * d ≤ totalSlept (executeCommand env command args cfg).trace := by
  obtain ⟨s, hs, _, hle⟩ := loop_sleeps env command args cfg d cfg.Retries.toNat 0 none
  have htrace : invocations (executeCommand env command args cfg).trace =
        invocations (executeCommand.loop env command args cfg d cfg.Retries.toNat 0 none).1 ∧
      sleeps (executeCommand env command args cfg).trace =
        sleeps (executeCommand.loop env command args cfg d cfg.Retries.toNat 0 none).1 := by
    cases h2 : (executeCommand.loop env command args cfg d cfg.Retries.toNat 0 none).2 with
    | none =>
      rw [executeCommand_of_none env command args cfg d hd h2]
      exact ⟨rfl, rfl⟩
    | some e =>
      rw [executeCommand_of_some env command args cfg d e hd h2]
      simp [invocations_append, sleeps_append, invocations, sleeps]
  rw [htrace.1] at hrun
  rw [hrun] at hle
  unfold totalSlept
  rw [htrace.2, hs]
  refine ⟨fun x hx => List.eq_of_mem_replicate hx, ?_⟩
  rw [List.sum_replicate, nsmul_eq_mul]
  have h1 : cfg.Retries - 1 ≤ (s : Int) := by omega
  exact mul_le_mul_of_nonneg_right h1 hd0

/-- C7, at `retries=3, sleep=1ms, regex=["not found"]` with a command that
exits 1 printing "file not found" on every attempt. -/
theorem sleeps_of_failed_run_witness :
    (∀ x, x ∈ sleeps (executeCommand (demoEnv fun _ => exits 1 "file not found") "cat" ["f"]
      (demoConfig 3)).trace → x = 1000000) ∧
    ((demoConfig 3).Retries - 1) * 1000000 ≤
      totalSlept (executeCommand (demoEnv fun _ => exits 1 "file not found") "cat" ["f"]
        (demoConfig 3)).trace :=
  sleeps_of_failed_run (demoEnv fun _ => exits 1 "file not found") "cat" ["f"] (demoConfig 3)
    1000000 (by decide) rfl (by decide) (by decide) (fun _ _ => by simp [demoEnv, exits])

/-- C8: for every configuration whose sleep string fails to parse,
`executeCommand` returns that parse error to its caller (so the process
exits with code 1) before the retry loop starts: no command is run and
nothing is slept, whatever `Retries`, the patterns and the command are. -/
theorem executeCommand_parse_error (env : Env) (command : String) (args : List String)
    (cfg : AppConfig) (err2 : GoError)
    (hd : env.parseDuration cfg.Sleep = Except.error err2) :
    (executeCommand env command args cfg).outcome = Outcome.returned (some err2) ∧
    exitCode (executeCommand env command args cfg).outcome = 1 ∧
    (executeCommand env command args cfg).trace = [] ∧
    invocations (executeCommand env command args cfg).trace = 0 ∧
    sleeps (executeCommand env command args cfg).trace = [] := by
  simp [executeCommand, hd, exitCode, invocations, sleeps]

/-- C8, at `retries=3, sleep="soon"`. -/
theorem executeCommand_parse_error_witness :
    (executeCommand (demoEnv fun _ => succeeds "") "true" []
        { demoConfig 3 with Sleep := "soon" }).outcome =
      Outcome.returned (some (GoError.other "time: invalid duration soon")) ∧
    exitCode (executeCommand (demoEnv fun _ => succeeds "") "true" []
        { demoConfig 3 with Sleep := "soon" }).outcome = 1 ∧
    (executeCommand (demoEnv fun _ => succeeds "") "true" []
        { demoConfig 3 with Sleep := "soon" }).trace = [] ∧
    invocations (executeCommand (demoEnv fun _ => succeeds "") "true" []
        { demoConfig 3 with Sleep := "soon" }).trace = 0 ∧
    sleeps (executeCommand (demoEnv fun _ => succeeds "") "true" []
        { demoConfig 3 with Sleep := "soon" }).trace = [] :=
  executeCommand_parse_error (demoEnv fun _ => succeeds "") "true" []
    { demoConfig 3 with Sleep := "soon" } (GoError.other "time: invalid duration soon") rfl

/-! ## Lemmas on the command line -/

theorem splitChars_ne_nil (sep : Char) (l : List Char) : splitChars sep l ≠ [] := by
  cases l with
  | nil => simp [splitChars]
  | cons c cs =>
    unfold splitChars
    by_cases h : c = sep
    · simp [h]
    · simp only [h, if_false]
      cases splitChars sep cs <;> simp

theorem stringsJoinSpace_cons_data (a : String) (rest : List String) (hne : rest ≠ []) :
    (stringsJoinSpace (a :: rest)).data = a.data ++ ' ' :: (stringsJoinSpace rest).data := by
  cases rest with
  | nil => exact absurd rfl hne
  | cons b t => simp [stringsJoinSpace, String.data_append]

/-- Joining the pieces of a split with the separator gives the text back. -/
theorem join_split_data (l : List Char) :
    (stringsJoinSpace ((splitChars ' ' l).map String.mk)).data = l := by
  induction l with
  | nil => rfl
  | cons c cs ih =>
    unfold splitChars
    by_cases h : c = ' '
    · subst h
      have hne : (splitChars ' ' cs).map String.mk ≠ [] := by
        simpa using splitChars_ne_nil ' ' cs
      simp only [if_true, List.map_cons]
      rw [stringsJoinSpace_cons_data _ _ hne, ih]
      rfl
    · simp only [h, if_false]
      cases hs : splitChars ' ' cs with
      | nil => exact absurd hs (splitChars_ne_nil ' ' cs)
      | cons piece pieces =>
        rw [hs] at ih
        cases pieces with
        | nil =>
          simp only [List.map_cons, List.map_nil, stringsJoinSpace] at ih ⊢
          simp [← ih]
        | cons q qs =>
          simp only [List.map_cons] at ih ⊢
          rw [stringsJoinSpace_cons_data _ _ (by simp)] at ih ⊢
          simp [← ih]

theorem join_split (s : String) : stringsJoinSpace (stringsSplitSpace s) = s := by
  apply String.ext
  exact join_split_data s.data

theorem stringsSplitSpace_ne_nil (s : String) : stringsSplitSpace s ≠ [] := by
  simpa [stringsSplitSpace] using splitChars_ne_nil ' ' s.data

/-- C9: for every non-empty list of trailing arguments `args`, the program
name p and the argument list a handed to `executeCommand` satisfy: if `args`
is a single string s, then p :: a is s split on the space character, and
joining p :: a with single spaces gives back s; if `args` has two or more
elements, then p :: a is `args` itself (p = args[0], a = args[1:]). -/
theorem commandLine_spec (args : List String) (hne : args ≠ []) :
    ∃ p a, commandLine args = some (p, a) ∧
      (∀ s, args = [s] → p :: a = stringsSplitSpace s ∧ stringsJoinSpace (p :: a) = s) ∧
      (2 ≤ args.length → p :: a = args) := by
  cases args with
  | nil => exact absurd rfl hne
  | cons x rest =>
    cases rest with
    | cons y more =>
      refine ⟨x, y :: more, rfl, ?_, fun _ => rfl⟩
      intro s hs
      simp at hs
    | nil =>
      have hjoin := join_split x
      cases hsplit : stringsSplitSpace x with
      | nil => exact absurd hsplit (stringsSplitSpace_ne_nil x)
      | cons first others =>
        cases others with
        | nil =>
          rw [hsplit] at hjoin
          have hfx : first = x := by simpa [stringsJoinSpace] using hjoin
          refine ⟨x, [], by simp [commandLine, hsplit], ?_, fun h => by simp at h⟩
          intro s hs
          have hsx : x = s := by simpa using hs
          subst hsx
          rw [hsplit, hfx]
          exact ⟨rfl, rfl⟩
        | cons second more =>
          refine ⟨first, second :: more, by simp [commandLine, hsplit], ?_,
            fun h => by simp at h⟩
          intro s hs
          have hsx : x = s := by simpa using hs
          subst hsx
          rw [hsplit]
          rw [hsplit] at hjoin
          exact ⟨rfl, hjoin⟩

/-- C9, at the single argument "ls -l  /tmp" (two spaces in a row give an
empty token). -/
theorem commandLine_spec_witness :
    ∃ p a, commandLine ["ls -l  /tmp"] = some (p, a) ∧
      (∀ s, ["ls -l  /tmp"] = [s] →
        p :: a = stringsSplitSpace s ∧ stringsJoinSpace (p :: a) = s) ∧
      (2 ≤ ["ls -l  /tmp"].length → p :: a = ["ls -l  /tmp"]) :=
  commandLine_spec ["ls -l  /tmp"] (by decide)

/-- C10: the exact outcome of the retry loop.  Attempts are numbered from 0
here, so the attempt at index j is the one at 1-based position j + 1.  With
a parsable sleep, for every integer `Retries` N, every pattern list and
every sequence of attempt results:
* if the attempt at index j is the first one that is not a matched failure,
  `runCommand` is invoked exactly min(max(N,0), j + 1) times;
* if every attempt is a matched failure, it is invoked max(N,0) times;
* there is one sleep, of the parsed duration, per matched failure among the
  attempts made;
* failure (exit code 1) is reported if and only if N >= 1 and the first N
  attempts are all matched failures; in every other case `executeCommand`
  returns `nil` (exit code 0). -/
theorem executeCommand_exact (env : Env) (command : String) (args : List String)
    (cfg : AppConfig) (d : Duration)
    (hd : env.parseDuration cfg.Sleep = Except.ok d) :
    (∀ j : Nat,
      (∀ i, i < j → matchedFailure env cfg.Regex (env.run i command args) = true) →
      matchedFailure env cfg.Regex (env.run j command args) = false →
      invocations (executeCommand env command args cfg).trace =
        min (max cfg.Retries 0).toNat (j + 1)) ∧
    ((∀ i, matchedFailure env cfg.Regex (env.run i command args) = true) →
      invocations (executeCommand env command args cfg).trace = (max cfg.Retries 0).toNat) ∧
    sleeps (executeCommand env command args cfg).trace =
      List.replicate
        ((List.range (invocations (executeCommand env command args cfg).trace)).countP
          fun i => matchedFailure env cfg.Regex (env.run i command args)) d ∧
    ((executeCommand env command args cfg).outcome = Outcome.exited 1 ↔
      1 ≤ cfg.Retries ∧ ∀ i : Nat, (i : Int) < cfg.Retries →
        matchedFailure env cfg.Regex (env.run i command args) = true) ∧
    (((executeCommand env command args cfg).outcome = Outcome.exited 1 ∧
        exitCode (executeCommand env command args cfg).outcome = 1) ∨
      ((executeCommand env command args cfg).outcome = Outcome.returned none ∧
        exitCode (executeCommand env command args cfg).outcome = 0)) := by
  have hmax : (max cfg.Retries 0).toNat = cfg.Retries.toNat := by
    rcases le_total cfg.Retries 0 with h | h
    · rw [max_eq_right h]; omega
    · rw [max_eq_left h]
  rw [hmax]
  rcases all_or_first_false
    (fun j => matchedFailure env cfg.Regex (env.run j command args)) cfg.Retries.toNat
    with hall | ⟨m, hm, hpre, hfalse⟩
  · -- every attempt the loop condition allows is a matched failure
    rcases le_or_lt cfg.Retries 0 with hN | hN
    · have h0 : cfg.Retries.toNat = 0 := by omega
      rw [executeCommand_no_attempt env command args cfg d hd hN, h0]
      refine ⟨fun j _ _ => by simp [invocations], fun _ => by simp [invocations],
        by simp [invocations, sleeps], ?_, Or.inr ⟨rfl, rfl⟩⟩
      constructor
      · intro h; cases h
      · rintro ⟨h1, _⟩; omega
    · obtain ⟨h1, h2, h3⟩ := executeCommand_all_matched env command args cfg d hd hN hall
      refine ⟨?_, fun _ => h1, ?_, ?_, Or.inl ⟨h3, by rw [h3]; rfl⟩⟩
      · intro j hpre hfalse
        have hj : cfg.Retries.toNat ≤ j := by
          by_contra hlt
          have := hall j (by omega)
          simp only at this
          rw [hfalse] at this
          exact Bool.noConfusion this
        rw [h1]
        omega
      · rw [h2, h1]
        congr 1
        rw [List.countP_eq_length.mpr]
        · simp
        · intro i hi
          exact hall i (List.mem_range.mp hi)
      · constructor
        · intro _
          exact ⟨hN, fun i hi => hall i (by omega)⟩
        · intro _
          exact h3
  · -- the attempt at index m is the first that is not a matched failure
    obtain ⟨h1, h2, h3⟩ := executeCommand_first_other env command args cfg d m hd hm hpre hfalse
    refine ⟨?_, ?_, ?_, ?_, Or.inr ⟨h3, by rw [h3]; rfl⟩⟩
    · intro j hjpre hjfalse
      have hjm : j = m := by
        rcases Nat.lt_trichotomy j m with hlt | heq | hgt
        · have := hpre j hlt
          simp only at this
          rw [hjfalse] at this
          exact Bool.noConfusion this
        · exact heq
        · have := hjpre m hgt
          rw [hfalse] at this
          exact Bool.noConfusion this
      rw [h1, hjm]
      omega
    · intro hev
      have := hev m
      rw [hfalse] at this
      exact Bool.noConfusion this
    · rw [h2, h1]
      congr 1
      rw [List.range_succ, List.countP_append, List.countP_eq_length.mpr]
      · simp [hfalse]
      · intro i hi
        exact hpre i (List.mem_range.mp hi)
    · constructor
      · intro h
        rw [h3] at h
        cases h
      · rintro ⟨_, hallN⟩
        have := hallN m (by omega)
        rw [hfalse] at this
        exact Bool.noConfusion this

/-- C10, at `retries=5, sleep=1ms, regex=["not found"]` with a command that
exits 1 printing "file not found" twice and then exits 0. -/
theorem executeCommand_exact_witness :
    invocations (executeCommand (demoEnv (failTwiceWith (exits 1 "file not found"))) "cat" ["g"]
      (demoConfig 5)).trace = min (max (demoConfig 5).Retries 0).toNat (2 + 1) :=
  (executeCommand_exact (demoEnv (failTwiceWith (exits 1 "file not found"))) "cat" ["g"]
    (demoConfig 5) 1000000 rfl).1 2 (by decide) (by decide)

end Retry
